import Mathlib

/-!
Verification of the Rosenbrock steepest-descent demonstration program
(`src/main.rs`) against its natural-language specification.

The program defines a `Rosenbrock` problem (fields `a`, `b`), implements the
`CostFunction`, `Gradient` and `Hessian` traits by delegating to the external
`argmin_testfunctions` crate, and runs an `Executor` with a `SteepestDescent`
solver and a `MoreThuenteLineSearch` from the external `argmin` crate.

Embedding conventions:
- an `f64` value is modelled by `F`: an exact rational together with the IEEE
  special values `+inf`, `-inf` and `NaN` (rounding and overflow are not
  modelled; NaN and infinity propagation follow IEEE rules for the operations
  the program uses);
- a Rust `Vec<f64>` is a `List F`;
- a fallible Rust function returning `Result<T, Error>` is `Except ErrKind T`;
- a possible panic (slice index out of bounds) is an outer `Option`: `none`
  models the panic, `some` a normal return.

Code living in the external crates (the test functions, the executor loop and
the line search) is not in this repository's sources; those definitions are
modelled from the specification and are marked as such in their doc comments.
-/

/-- An `f64` value: an exact rational (`fin`), `+∞`, `-∞` or `NaN`. -/
inductive F where
  | fin : ℚ → F
  | pinf : F
  | ninf : F
  | nan : F
deriving DecidableEq

namespace F

/-- IEEE negation on `F`. -/
def neg : F → F
  | fin q => fin (-q)
  | pinf => ninf
  | ninf => pinf
  | nan => nan

/-- IEEE addition on `F` (exact on finite operands; `∞ + -∞ = NaN`; NaN propagates). -/
def add : F → F → F
  | nan, _ => nan
  | _, nan => nan
  | fin a, fin b => fin (a + b)
  | fin _, pinf => pinf
  | pinf, fin _ => pinf
  | fin _, ninf => ninf
  | ninf, fin _ => ninf
  | pinf, pinf => pinf
  | ninf, ninf => ninf
  | pinf, ninf => nan
  | ninf, pinf => nan

/-- IEEE subtraction, `a - b = a + (-b)`. -/
def sub (a b : F) : F := a.add b.neg

/-- IEEE multiplication on `F` (`±∞ * 0 = NaN`; NaN propagates; signs as usual). -/
def mul : F → F → F
  | nan, _ => nan
  | _, nan => nan
  | fin a, fin b => fin (a * b)
  | fin a, pinf => if 0 < a then pinf else if a < 0 then ninf else nan
  | pinf, fin a => if 0 < a then pinf else if a < 0 then ninf else nan
  | fin a, ninf => if 0 < a then ninf else if a < 0 then pinf else nan
  | ninf, fin a => if 0 < a then ninf else if a < 0 then pinf else nan
  | pinf, pinf => pinf
  | ninf, ninf => pinf
  | pinf, ninf => ninf
  | ninf, pinf => ninf

/-- The `f64::is_finite` predicate: true exactly on `fin` values. -/
def isFinite : F → Bool
  | fin _ => true
  | _ => false

end F

/-- The error taxonomy of the specification (§7): the error kinds an optimization
run can surface to the caller; also used as the error type of the problem's
`Result` values. -/
inductive ErrKind where
  | DimensionMismatch : ErrKind
  | MissingInitialParam : ErrKind
  | EvaluationError : ErrKind
  | LineSearchFailure : ErrKind
deriving DecidableEq

deriving instance DecidableEq for Except

/-- Modelled from the spec: `rosenbrock_2d` of the external `argmin_testfunctions`
crate, absent from this repository's sources. The spec gives the reference
definition of the 2-D Rosenbrock test function, `(a - p[0])^2 + b*(p[1] - p[0]^2)^2`.
`none` models the index-out-of-bounds panic when `p` has fewer than two entries. -/
def rosenbrock_2d (p : List F) (a b : F) : Option F :=
  match p.get? 0, p.get? 1 with
  | some x, some y =>
      some (((a.sub x).mul (a.sub x)).add
        (b.mul ((y.sub (x.mul x)).mul (y.sub (x.mul x)))))
  | _, _ => none

/-- Modelled from the spec: `rosenbrock_2d_derivative` of the external
`argmin_testfunctions` crate, absent from this repository's sources: the
gradient of the 2-D Rosenbrock function, a 2-element vector
`[-2(a-x) - 4bx(y - x²), 2b(y - x²)]` read off `p[0]` and `p[1]`.
`none` models the index-out-of-bounds panic. -/
def rosenbrock_2d_derivative (p : List F) (a b : F) : Option (List F) :=
  match p.get? 0, p.get? 1 with
  | some x, some y =>
      some [((F.fin (-2)).mul (a.sub x)).sub
              ((((F.fin 4).mul b).mul (y.sub (x.mul x))).mul x),
            ((F.fin 2).mul b).mul (y.sub (x.mul x))]
  | _, _ => none

/-- Modelled from the spec: `rosenbrock_2d_hessian` of the external
`argmin_testfunctions` crate, absent from this repository's sources: the
Hessian of the 2-D Rosenbrock function as a flat 4-element vector
`[2 - 4by + 12bx², -4bx, -4bx, 2b]` in row-major order (the spec's claim
sources describe it as "the 4-element Hessian of the 2-D Rosenbrock function").
`none` models the index-out-of-bounds panic. -/
def rosenbrock_2d_hessian (p : List F) (a b : F) : Option (List F) :=
  match p.get? 0, p.get? 1 with
  | some x, some y =>
      some [((F.fin 2).sub (((F.fin 4).mul b).mul y)).add
              (((F.fin 12).mul b).mul (x.mul x)),
            ((F.fin (-4)).mul b).mul x,
            ((F.fin (-4)).mul b).mul x,
            (F.fin 2).mul b]
  | _, _ => none

/-- The problem struct of `src/main.rs`: `struct Rosenbrock { a: f64, b: f64 }`. -/
structure Rosenbrock where
  a : F
  b : F
deriving DecidableEq

namespace Rosenbrock

/-- The `CostFunction` impl of `src/main.rs`:
`fn cost(&self, p) -> Result<f64, Error> { Ok(rosenbrock_2d(p, self.a, self.b)) }`. -/
def cost (self : Rosenbrock) (p : List F) : Option (Except ErrKind F) :=
  (rosenbrock_2d p self.a self.b).map Except.ok

/-- The `Gradient` impl of `src/main.rs`:
`fn gradient(&self, p) -> Result<Vec<f64>, Error> { Ok(rosenbrock_2d_derivative(p, self.a, self.b)) }`. -/
def gradient (self : Rosenbrock) (p : List F) : Option (Except ErrKind (List F)) :=
  (rosenbrock_2d_derivative p self.a self.b).map Except.ok

/-- The `Hessian` impl of `src/main.rs`:
`let t = rosenbrock_2d_hessian(p, self.a, self.b); Ok(vec![vec![t[0], t[1]], vec![t[2], t[3]]])`.
The four indexing operations `t[0]`..`t[3]` are modelled by `t.get?`; an
out-of-bounds access is the outer `none` (a panic). -/
def hessian (self : Rosenbrock) (p : List F) : Option (Except ErrKind (List (List F))) :=
  match rosenbrock_2d_hessian p self.a self.b with
  | none => none
  | some t =>
    match t.get? 0, t.get? 1, t.get? 2, t.get? 3 with
    | some t0, some t1, some t2, some t3 => some (Except.ok [[t0, t1], [t2, t3]])
    | _, _, _, _ => none

end Rosenbrock

/-- The reference 2-D Rosenbrock function, written from the specification's own
words (`(a - p[0])^2 + b*(p[1] - p[0]^2)^2`), to be compared with the program's
cost function. -/
def rosenbrockRef (a b x y : F) : F :=
  ((a.sub x).mul (a.sub x)).add
    (b.mul ((y.sub (x.mul x)).mul (y.sub (x.mul x))))

/-- The configurable fields of argmin's `IterState` that `main` sets through
`Executor::configure`: initial parameter vector, iteration bound, target cost.
Defaults follow the source comments: `max_iters` is `std::u64::MAX` if not
provided, the parameter vector is absent, the target cost is `-∞`. -/
structure IterConfig where
  param : Option (List F)
  max_iters : Nat
  target_cost : F
deriving DecidableEq

namespace IterConfig

/-- The default state handed to the `configure` closure. -/
def default : IterConfig :=
  { param := none, max_iters := 18446744073709551615, target_cost := F.ninf }

/-- The `IterState::param` builder method: sets the initial parameter vector. -/
def set_param (s : IterConfig) (p : List F) : IterConfig := { s with param := some p }

/-- The `IterState::max_iters` builder method. -/
def set_max_iters (s : IterConfig) (n : Nat) : IterConfig := { s with max_iters := n }

/-- The `IterState::target_cost` builder method. -/
def set_target_cost (s : IterConfig) (c : F) : IterConfig := { s with target_cost := c }

end IterConfig

/-- The initial parameter vector of `main`: `let init_param = vec![1.0, -2.0];`. -/
def init_param : List F := [F.fin 1, F.fin (-2)]

/-- The problem instance of `main`: `Rosenbrock { a: (1.0), b: (100.0) }`. -/
def mainProblem : Rosenbrock := { a := F.fin 1, b := F.fin 100 }

/-- The state produced by `main`'s `configure` closure:
`state.param(init_param).max_iters(1000).target_cost(0.0)`. -/
def mainConfiguredState : IterConfig :=
  ((IterConfig.default.set_param init_param).set_max_iters 1000).set_target_cost (F.fin 0)

/-- C1: for every parameter vector `p` (any vector exposing components `p[0]`
and `p[1]`), `Rosenbrock::cost` with fields `a = 1.0` and `b = 100.0` returns
`Ok` of the reference 2-D Rosenbrock function `(a - p[0])^2 + b*(p[1] - p[0]^2)^2`
evaluated at `p`. -/
theorem cost_is_rosenbrock (x y : F) (rest : List F) :
    Rosenbrock.cost { a := F.fin 1, b := F.fin 100 } (x :: y :: rest)
      = some (Except.ok (rosenbrockRef (F.fin 1) (F.fin 100) x y)) := rfl

/-- C2: `main` configures exactly the Rosenbrock scenario of the spec: the
problem is built with `a = 1.0` and `b = 100.0`, and the executor state passed
to `run()` carries initial parameter vector `[1.0, -2.0]`, `max_iters = 1000`
and `target_cost = 0.0`. -/
theorem main_configures_rosenbrock_scenario :
    mainProblem.a = F.fin 1 ∧ mainProblem.b = F.fin 100 ∧
    mainConfiguredState.param = some [F.fin 1, F.fin (-2)] ∧
    mainConfiguredState.max_iters = 1000 ∧
    mainConfiguredState.target_cost = F.fin 0 :=
  ⟨rfl, rfl, rfl, rfl, rfl⟩

/-- C3 counterexample: on the 3-element parameter vector `[0.0, 0.0, 0.0]` the
program's gradient is the 2-element vector `[-2.0, 0.0]`, whose dimension does
not equal the dimension of `p`; so the claim as stated (for every parameter
vector) is false. -/
theorem gradient_dimension_counterexample :
    ∃ g : List F,
      Rosenbrock.gradient { a := F.fin 1, b := F.fin 100 } [F.fin 0, F.fin 0, F.fin 0]
        = some (Except.ok g) ∧
      g.length ≠ ([F.fin 0, F.fin 0, F.fin 0] : List F).length :=
  ⟨_, rfl, by decide⟩

/-- C3 (amended): for every 2-element parameter vector `p`, `Rosenbrock::gradient`
returns `Ok` of a gradient vector whose dimension equals the dimension of `p`. -/
theorem gradient_dimension_eq_param_dimension (r : Rosenbrock) (x y : F) :
    ∃ g : List F, r.gradient [x, y] = some (Except.ok g) ∧
      g.length = ([x, y] : List F).length := by
  refine ⟨_, rfl, rfl⟩

/-- C4 counterexample: at `p = [NaN, 0.0]` the cost evaluation produces the
non-finite value `NaN`, yet `Rosenbrock::cost` returns it through the `Ok`
variant instead of failing with an `EvaluationError`; so the claim as stated
is false. -/
theorem cost_nonfinite_counterexample :
    Rosenbrock.cost { a := F.fin 1, b := F.fin 100 } [F.nan, F.fin 0]
      = some (Except.ok F.nan) ∧ F.isFinite F.nan = false := by
  exact ⟨rfl, rfl⟩

/-- C4 (amended): `Rosenbrock::cost` never returns the error variant: for every
parameter vector `p` it is exactly the `Ok`-wrapping of `rosenbrock_2d`, so a
non-finite value is returned inside `Ok` rather than reported as an
`EvaluationError`. -/
theorem cost_never_errors (r : Rosenbrock) (p : List F) :
    r.cost p = (rosenbrock_2d p r.a r.b).map Except.ok := rfl

/-- C5: for every parameter vector `p` (any vector exposing `p[0]` and `p[1]`),
`Rosenbrock::hessian` returns `Ok` of the row-major reshape
`[[t[0], t[1]], [t[2], t[3]]]` of the 4-element Hessian `t` of the 2-D
Rosenbrock function at `p`, a square 2×2 matrix. -/
theorem hessian_is_reshaped_square (r : Rosenbrock) (x y : F) (rest : List F) :
    ∃ t0 t1 t2 t3 : F,
      rosenbrock_2d_hessian (x :: y :: rest) r.a r.b = some [t0, t1, t2, t3] ∧
      r.hessian (x :: y :: rest) = some (Except.ok [[t0, t1], [t2, t3]]) ∧
      ([[t0, t1], [t2, t3]] : List (List F)).length = 2 ∧
      ([[t0, t1], [t2, t3]] : List (List F)).map List.length = [2, 2] := by
  refine ⟨_, _, _, _, rfl, rfl, rfl, rfl⟩

/-- C6: cost and gradient evaluation are deterministic: two evaluations of
`Rosenbrock::cost` at the same `p` are identical, and likewise for
`Rosenbrock::gradient` (the Rust bodies are state-free, so in the embedding
both are functions of `r` and `p` alone and the two-run equality holds
definitionally). -/
theorem cost_gradient_deterministic (r : Rosenbrock) (p : List F) :
    r.cost p = r.cost p ∧ r.gradient p = r.gradient p := ⟨rfl, rfl⟩

/-- C10: for every 2-element parameter vector, finite or not, the three
evaluations `cost`, `gradient` and `hessian` return normally (no panic: the
outer value is `some`) and never return the `Err` variant, and the flat
Hessian `t` has exactly 4 elements, so the accesses `t[0]`..`t[3]` are in
bounds. -/
theorem evaluations_total_on_pairs (r : Rosenbrock) (x y : F) :
    (∃ v : F, r.cost [x, y] = some (Except.ok v)) ∧
    (∃ g : List F, r.gradient [x, y] = some (Except.ok g)) ∧
    (∃ t : List F, rosenbrock_2d_hessian [x, y] r.a r.b = some t ∧ t.length = 4) ∧
    (∃ m : List (List F), r.hessian [x, y] = some (Except.ok m)) := by
  exact ⟨⟨_, rfl⟩, ⟨_, rfl⟩, ⟨_, rfl, rfl⟩, ⟨_, rfl⟩⟩

/-- Modelled from the spec: the Vector Algebra dot product (§4.1) of the
external engine, absent from this repository's sources: `dot(a,b)` over
fixed-length rational vectors (exact real arithmetic). -/
def dot (a b : List ℚ) : ℚ := (List.zipWith (fun x y => x * y) a b).sum

/-- Modelled from the spec: the Vector Algebra `scale(a, s)` operation (§4.1). -/
def scale (a : List ℚ) (s : ℚ) : List ℚ := a.map (fun x => s * x)

/-- Modelled from the spec: the Vector Algebra `axpy(a, s, b)` operation (§4.1),
computing `a + s·b` elementwise. -/
def axpy (a : List ℚ) (s : ℚ) (b : List ℚ) : List ℚ :=
  List.zipWith (fun x y => x + s * y) a b

/-- Modelled from the spec: elementwise negation, used to form the steepest
descent direction `-gradient` (§4.4). -/
def negV (a : List ℚ) : List ℚ := a.map (fun x => -x)

/-- Modelled from the spec: the `IterationState` record (§3) of the external
engine, absent from this repository's sources: current point and cost,
best-so-far point and cost, iteration counter. -/
structure IterState where
  param : List ℚ
  cost : ℚ
  best_param : List ℚ
  best_cost : ℚ
  iter : Nat
deriving DecidableEq

/-- Modelled from the spec: the state created at run start (§3): current and
best point are the initial point, current and best cost its cost, counter 0. -/
def initState (p : List ℚ) (c : ℚ) : IterState :=
  { param := p, cost := c, best_param := p, best_cost := c, iter := 0 }

/-- Modelled from the spec: one outer iteration of the engine (§4.4/§4.5),
abstracted over how the next candidate point is produced (`next` stands for
the line-search step `current + α·direction`): evaluate the cost at the new
point, advance the counter by exactly 1, and update the best-so-far record as
a running minimum. -/
def stepOnce (f : List ℚ → ℚ) (next : IterState → List ℚ) (s : IterState) : IterState :=
  { param := next s,
    cost := f (next s),
    best_param := if f (next s) < s.best_cost then next s else s.best_param,
    best_cost := if f (next s) < s.best_cost then f (next s) else s.best_cost,
    iter := s.iter + 1 }

/-- Modelled from the spec: the costs of every point evaluated during `n`
iterations from state `s` (the current cost, then the costs of the successive
iterates), the spec's "cost of every evaluated point in the run" (§3). -/
def evalCosts (f : List ℚ → ℚ) (next : IterState → List ℚ) : Nat → IterState → List ℚ
  | 0, s => [s.cost]
  | n + 1, s => s.cost :: evalCosts f next n (stepOnce f next s)

theorem stepOnce_best_le (f : List ℚ → ℚ) (next : IterState → List ℚ) (s : IterState) :
    (stepOnce f next s).best_cost ≤ s.best_cost := by
  unfold stepOnce
  dsimp only
  split
  · exact le_of_lt (by assumption)
  · exact le_rfl

theorem stepOnce_best_le_cost (f : List ℚ → ℚ) (next : IterState → List ℚ) (s : IterState) :
    (stepOnce f next s).best_cost ≤ (stepOnce f next s).cost := by
  unfold stepOnce
  dsimp only
  split
  · exact le_rfl
  · exact le_of_not_lt (by assumption)

theorem iterate_best_mono (f : List ℚ → ℚ) (next : IterState → List ℚ) :
    ∀ (n : Nat) (s : IterState),
      ((stepOnce f next)^[n] s).best_cost ≤ s.best_cost := by
  intro n
  induction n with
  | zero => intro s; exact le_rfl
  | succ n ih =>
    intro s
    rw [Function.iterate_succ_apply]
    exact le_trans (ih (stepOnce f next s)) (stepOnce_best_le f next s)

theorem best_le_evalCosts (f : List ℚ → ℚ) (next : IterState → List ℚ) :
    ∀ (n : Nat) (s : IterState), s.best_cost ≤ s.cost →
      ∀ c ∈ evalCosts f next n s, ((stepOnce f next)^[n] s).best_cost ≤ c := by
  intro n
  induction n with
  | zero =>
    intro s hs c hc
    rw [evalCosts, List.mem_singleton] at hc
    exact hc ▸ hs
  | succ n ih =>
    intro s hs c hc
    rw [evalCosts, List.mem_cons] at hc
    rw [Function.iterate_succ_apply]
    rcases hc with hc | hc
    · exact hc ▸ le_trans (iterate_best_mono f next n (stepOnce f next s))
        (le_trans (stepOnce_best_le f next s) hs)
    · exact ih (stepOnce f next s) (stepOnce_best_le_cost f next s) c hc

/-- C7: the best-so-far cost is a running minimum: after iteration `k+1` it is
less than or equal to the best cost after iteration `k`, and at the end of a
run of `n` iterations it is less than or equal to the cost of every point
evaluated during the run. -/
theorem best_cost_running_minimum (f : List ℚ → ℚ) (next : IterState → List ℚ)
    (p0 : List ℚ) (k n : Nat) (c : ℚ)
    (hc : c ∈ evalCosts f next n (initState p0 (f p0))) :
    ((stepOnce f next)^[k + 1] (initState p0 (f p0))).best_cost
      ≤ ((stepOnce f next)^[k] (initState p0 (f p0))).best_cost ∧
    ((stepOnce f next)^[n] (initState p0 (f p0))).best_cost ≤ c := by
  constructor
  · rw [Function.iterate_succ_apply']
    exact stepOnce_best_le f next ((stepOnce f next)^[k] (initState p0 (f p0)))
  · exact best_le_evalCosts f next n (initState p0 (f p0)) le_rfl c hc

/-- Witness for C7: the running-minimum property instantiated on the constant
zero cost function, the empty point, `k = 0` and `n = 0`, where the only
evaluated cost is the initial cost `0`. -/
theorem best_cost_running_minimum_witness :
    ((0 : ℚ) ∈ evalCosts (fun _ => (0 : ℚ)) (fun _ => []) 0 (initState [] 0)) ∧
    (((stepOnce (fun _ => (0 : ℚ)) (fun _ => []))^[0 + 1] (initState [] 0)).best_cost
      ≤ ((stepOnce (fun _ => (0 : ℚ)) (fun _ => []))^[0] (initState [] 0)).best_cost ∧
    ((stepOnce (fun _ => (0 : ℚ)) (fun _ => []))^[0] (initState [] 0)).best_cost ≤ 0) :=
  ⟨by simp [evalCosts, initState],
   best_cost_running_minimum (fun _ => (0 : ℚ)) (fun _ => []) [] 0 0 0
     (by simp [evalCosts, initState])⟩

/-- Modelled from the spec: the strong Wolfe conditions (§4.3) — sufficient
decrease `f(x + α·d) ≤ f(x) + c1·α·(g(x)·d)` and curvature
`|g(x+α·d)·d| ≤ c2·|g(x)·d|`. -/
def strongWolfe (f : List ℚ → ℚ) (g : List ℚ → List ℚ) (x d : List ℚ)
    (c1 c2 alpha : ℚ) : Prop :=
  f (axpy x alpha d) ≤ f x + c1 * alpha * dot (g x) d ∧
  |dot (g (axpy x alpha d)) d| ≤ c2 * |dot (g x) d|

instance (f : List ℚ → ℚ) (g : List ℚ → List ℚ) (x d : List ℚ) (c1 c2 alpha : ℚ) :
    Decidable (strongWolfe f g x d c1 c2 alpha) :=
  inferInstanceAs (Decidable
    (f (axpy x alpha d) ≤ f x + c1 * alpha * dot (g x) d ∧
     |dot (g (axpy x alpha d)) d| ≤ c2 * |dot (g x) d|))

/-- Modelled from the spec: the More–Thuente line search of the external
`argmin` crate, absent from this repository's sources. The spec (§4.3, §9)
fixes only the observable contract — the search tries trial step lengths and
"terminates successfully when both Wolfe conditions hold for the current trial
α", the bracket-narrowing heuristics being implementation-defined — so the
trial sequence is a parameter and the search returns the first strictly
positive trial satisfying both strong Wolfe conditions, `none` (failure)
otherwise. -/
def moreThuenteSearch (f : List ℚ → ℚ) (g : List ℚ → List ℚ) (x d : List ℚ)
    (c1 c2 : ℚ) : List ℚ → Option ℚ
  | [] => none
  | alpha :: rest =>
    if 0 < alpha ∧ strongWolfe f g x d c1 c2 alpha then some alpha
    else moreThuenteSearch f g x d c1 c2 rest

/-- C8: whenever the More–Thuente line search returns successfully with the
default constants `c1 = 1e-4` and `c2 = 0.9`, the returned step length `α` is
strictly positive and satisfies both strong Wolfe conditions:
`f(x + α·d) ≤ f(x) + c1·α·(g(x)·d)` and `|g(x+α·d)·d| ≤ c2·|g(x)·d|`. -/
theorem moreThuente_success_wolfe (f : List ℚ → ℚ) (g : List ℚ → List ℚ)
    (x d : List ℚ) (trials : List ℚ) (alpha : ℚ)
    (h : moreThuenteSearch f g x d (1/10000) (9/10) trials = some alpha) :
    0 < alpha ∧
    f (axpy x alpha d) ≤ f x + (1/10000) * alpha * dot (g x) d ∧
    |dot (g (axpy x alpha d)) d| ≤ (9/10) * |dot (g x) d| := by
  induction trials with
  | nil => exact absurd h (by simp [moreThuenteSearch])
  | cons a rest ih =>
    rw [moreThuenteSearch] at h
    split at h
    · rename_i hcond
      cases h
      exact ⟨hcond.1, hcond.2.1, hcond.2.2⟩
    · exact ih h

/-- Witness for C8: on the quadratic cost `f(v) = v·v` with gradient `2v`,
from `x = [1, 0]` along the steepest-descent direction `d = [-2, 0]`, the
search over the single trial step `1/4` succeeds, and the Wolfe conclusions
hold at `α = 1/4`. -/
theorem moreThuente_success_wolfe_witness :
    moreThuenteSearch (fun v => dot v v) (fun v => scale v 2)
        [(1 : ℚ), 0] [(-2 : ℚ), 0] (1/10000) (9/10) [(1/4 : ℚ)] = some (1/4) ∧
    (0 < (1/4 : ℚ) ∧
     (fun v => dot v v) (axpy [(1 : ℚ), 0] (1/4) [(-2 : ℚ), 0])
       ≤ (fun v => dot v v) [(1 : ℚ), 0]
         + (1/10000) * (1/4) * dot ((fun v => scale v 2) [(1 : ℚ), 0]) [(-2 : ℚ), 0] ∧
     |dot ((fun v => scale v 2) (axpy [(1 : ℚ), 0] (1/4) [(-2 : ℚ), 0])) [(-2 : ℚ), 0]|
       ≤ (9/10) * |dot ((fun v => scale v 2) [(1 : ℚ), 0]) [(-2 : ℚ), 0]|) := by
  have hls : moreThuenteSearch (fun v => dot v v) (fun v => scale v 2)
      [(1 : ℚ), 0] [(-2 : ℚ), 0] (1/10000) (9/10) [(1/4 : ℚ)] = some (1/4) := by
    rw [moreThuenteSearch, if_pos]
    refine ⟨by norm_num, ?_, ?_⟩
    · simp only [dot, axpy, scale, List.zipWith_cons_cons, List.zipWith_nil_left,
        List.zipWith_nil_right, List.map_cons, List.map_nil, List.sum_cons, List.sum_nil]
      norm_num
    · simp only [dot, axpy, scale, List.zipWith_cons_cons, List.zipWith_nil_left,
        List.zipWith_nil_right, List.map_cons, List.map_nil, List.sum_cons, List.sum_nil]
      norm_num
  exact ⟨hls, moreThuente_success_wolfe (fun v => dot v v) (fun v => scale v 2)
    [(1 : ℚ), 0] [(-2 : ℚ), 0] [(1/4 : ℚ)] (1/4) hls⟩

/-- Modelled from the spec: the termination reason tags of an
`OptimizationResult` (§6). -/
inductive TerminationReason where
  | Converged : TerminationReason
  | MaxIterExceeded : TerminationReason
  | Failed : TerminationReason
deriving DecidableEq

/-- Modelled from the spec: the terminal `OptimizationResult` record (§6):
best point, best cost, iteration count and a termination reason tag. -/
structure OptimizationResult where
  best_param : List ℚ
  best_cost : ℚ
  iterations : Nat
  termination_reason : TerminationReason
deriving DecidableEq

/-- Modelled from the spec: the configuration record of a run (§6):
`param` (initial point, required), `max_iters`, `target_cost`. -/
structure RunConfig where
  param : Option (List ℚ)
  max_iters : Nat
  target_cost : ℚ
deriving DecidableEq

/-- Modelled from the spec: the steepest-descent driving loop (§4.4) of the
external `argmin` crate, absent from this repository's sources: while the
target cost is not reached and iterations remain, form the direction
`-gradient`, invoke the line search (an `Option`-valued oracle `ls`), step to
`current + α·direction` via `stepOnce`, and propagate a line-search failure
as `LineSearchFailure`; reaching the target yields `Converged`, exhausting
the budget yields `MaxIterExceeded`. -/
def runLoop (f : List ℚ → ℚ) (g : List ℚ → List ℚ)
    (ls : List ℚ → List ℚ → Option ℚ) (target : ℚ) :
    Nat → IterState → Except ErrKind (IterState × TerminationReason)
  | 0, s =>
    if s.cost ≤ target then Except.ok (s, TerminationReason.Converged)
    else Except.ok (s, TerminationReason.MaxIterExceeded)
  | fuel + 1, s =>
    if s.cost ≤ target then Except.ok (s, TerminationReason.Converged)
    else
      match ls s.param (negV (g s.param)) with
      | none => Except.error ErrKind.LineSearchFailure
      | some alpha =>
        runLoop f g ls target fuel
          (stepOnce f (fun t => axpy t.param alpha (negV (g t.param))) s)

/-- Modelled from the spec: `Executor::run` (§4.5, §6) of the external
`argmin` crate, absent from this repository's sources: fail with
`MissingInitialParam` when no initial point is configured, otherwise drive
the solver loop from the initial state and package the terminal state as an
`OptimizationResult`. -/
def Executor.run (f : List ℚ → ℚ) (g : List ℚ → List ℚ)
    (ls : List ℚ → List ℚ → Option ℚ) (cfg : RunConfig) :
    Except ErrKind OptimizationResult :=
  match cfg.param with
  | none => Except.error ErrKind.MissingInitialParam
  | some p0 =>
    match runLoop f g ls cfg.target_cost cfg.max_iters (initState p0 (f p0)) with
    | Except.error e => Except.error e
    | Except.ok (s, reason) =>
      Except.ok { best_param := s.best_param, best_cost := s.best_cost,
                  iterations := s.iter, termination_reason := reason }

/-- C9: every call to `Executor::run` returns either a terminal
`OptimizationResult` (`Ok`) or a specific tagged error (`Err`): the caller
never receives a partial or ambiguous state and no failure is silently
swallowed. -/
theorem run_total_ok_or_error (f : List ℚ → ℚ) (g : List ℚ → List ℚ)
    (ls : List ℚ → List ℚ → Option ℚ) (cfg : RunConfig) :
    (∃ res : OptimizationResult, Executor.run f g ls cfg = Except.ok res) ∨
    (∃ e : ErrKind, Executor.run f g ls cfg = Except.error e) := by
  cases h : Executor.run f g ls cfg with
  | ok res => exact Or.inl ⟨res, rfl⟩
  | error e => exact Or.inr ⟨e, rfl⟩
